import Mathlib

/-!
Verification development for the MIRP benchmark evaluation scripts.

The Python evaluation scripts (`RQ1_RQ2_RQ3-2_calculate_results_image.py` and
`RQ3-1_calculate_results_anatomy.py`) are shallowly embedded here.  Python
strings are modelled as `List Char`; the regular expressions used by the
scripts are small enough that each one is translated into an explicit,
executable scanning function whose behaviour (including leftmost-match and
backtracking order) matches the Python `re` semantics on the patterns used.
-/

namespace MIRP

/-- Python strings are modelled as lists of characters. -/
abbrev PyStr := List Char

/-- Convert a Lean string literal into the model type. -/
def pstr (s : String) : PyStr := s.data

/-- The single-quote character (written via its code point). -/
def squote : Char := Char.ofNat 39

/-- The double-quote character (written via its code point). -/
def dquote : Char := Char.ofNat 34

/-- The opening curly bracket character (written via its code point). -/
def obrace : Char := Char.ofNat 123

/-- The closing curly bracket character (written via its code point). -/
def cbrace : Char := Char.ofNat 125

/-- Characters stripped by Python `str.strip()` (ASCII whitespace, as used by
the scripts' data). -/
def isPySpace (c : Char) : Bool :=
  c == ' ' || c == '\t' || c == '\n' || c == '\r' || c == '\x0b' || c == '\x0c'

/-- Python `str.lower()` on the (ASCII) data handled by the scripts. -/
def pyLower (s : PyStr) : PyStr := s.map Char.toLower

/-- Python `str.strip()`: drop whitespace from both ends. -/
def pyStrip (s : PyStr) : PyStr :=
  ((s.dropWhile isPySpace).reverse.dropWhile isPySpace).reverse

/-- Does `s` start with the pattern `pat`? -/
def startsWith : PyStr → PyStr → Bool
  | _, [] => true
  | [], _ :: _ => false
  | c :: s, d :: t => c == d && startsWith s t

/-- Python substring test `pat in s`. -/
def hasSub : PyStr → PyStr → Bool
  | [], pat => startsWith [] pat
  | s@(_ :: rest), pat => startsWith s pat || hasSub rest pat

/-- Case-insensitive test that `t` starts with the (lower-case) pattern
`pat`: used for the `re.I` matches of the scripts. -/
def ciPref (pat t : PyStr) : Bool := startsWith (pyLower t) pat

/-- The character class `[\(\[\{\'\"\.\s]` that the answer parser's regexes
allow before a token. -/
def openCls (c : Char) : Bool :=
  c == '(' || c == '[' || c == obrace || c == squote || c == dquote ||
    c == '.' || isPySpace c

/-- The character class `[\)\]\}\'\"\.\s]` that the answer parser's regexes
allow after a token. -/
def closeCls (c : Char) : Bool :=
  c == ')' || c == ']' || c == cbrace || c == squote || c == dquote ||
    c == '.' || isPySpace c

/-- Direction word "above". -/
def aboveW : PyStr := pstr "above"

/-- Direction word "below". -/
def belowW : PyStr := pstr "below"

/-- Direction word "left". -/
def leftW : PyStr := pstr "left"

/-- Direction word "right". -/
def rightW : PyStr := pstr "right"

/-- Token "yes". -/
def yesW : PyStr := pstr "yes"

/-- Token "no". -/
def noW : PyStr := pstr "no"

/-- Token "0". -/
def zeroW : PyStr := pstr "0"

/-- Token "1". -/
def oneW : PyStr := pstr "1"

/-- The ordered list of direction-word pairs scanned by
`parse_spatial_relation` in both scripts. -/
def psrPairs : List (PyStr × PyStr) :=
  [(aboveW, belowW), (belowW, aboveW), (leftW, rightW), (rightW, leftW)]

/-- The loop body of `parse_spatial_relation`: for each pair `(d, opp)` in
order, if `d` occurs in the (lowered) question then return 1 when `d` occurs
in the (lowered) answer, 0 when `opp` does; otherwise move to the next
pair. -/
def psrScan (ql al : PyStr) : List (PyStr × PyStr) → Option Int
  | [] => none
  | (d, opp) :: rest =>
    if hasSub ql d then
      if hasSub al d then some 1
      else if hasSub al opp then some 0
      else psrScan ql al rest
    else psrScan ql al rest

/-- `parse_spatial_relation(q, a)` from both evaluation scripts. -/
def parse_spatial_relation (q a : PyStr) : Option Int :=
  psrScan (pyLower q) (pyLower a) psrPairs

/-- The helper `sdigit` of `parse_model_answer`: full match of
`[\(\[\{\'\"\.\s]*(0|1)[\)\]\}\'\"\.\s]*` against the stripped string.  The
token characters 0/1 belong to neither bracket class, so the regex matches
exactly when, after dropping the maximal run of opening-class characters,
the next character is 0 or 1 and everything after it is in the closing
class. -/
def sdigit (s : PyStr) : Option Char :=
  match (pyStrip s).dropWhile openCls with
  | [] => none
  | d :: rest =>
    if (d == '0' || d == '1') && rest.all closeCls then some d else none

/-- The helper `syesno` of `parse_model_answer`: full case-insensitive match
of `[\(\[\{\'\"\.\s]*(yes|no)[\)\]\}\'\"\.\s]*` against the stripped string;
returns the lowered token. -/
def syesno (s : PyStr) : Option PyStr :=
  let p := (pyStrip s).dropWhile openCls
  if ciPref yesW p && (p.drop 3).all closeCls then some yesW
  else if ciPref noW p && (p.drop 2).all closeCls then some noW
  else none

/-- First half of the helper `se_token`: case-insensitive
`re.match(r'^[\(\[\{\'\"\.\s]*(0|1|yes|no)', ...)`.  As in `sdigit`, the
bracket-class run is forced to be maximal; the four alternatives start with
distinct characters so at most one can apply. -/
def seTokStart (p : PyStr) : Option PyStr :=
  if ciPref zeroW p then some zeroW
  else if ciPref oneW p then some oneW
  else if ciPref yesW p then some yesW
  else if ciPref noW p then some noW
  else none

/-- One position of the end-token search: a token at this position followed
only by closing-class characters. -/
def seTokEndHere (t : PyStr) : Option PyStr :=
  if ciPref zeroW t && (t.drop 1).all closeCls then some zeroW
  else if ciPref oneW t && (t.drop 1).all closeCls then some oneW
  else if ciPref yesW t && (t.drop 3).all closeCls then some yesW
  else if ciPref noW t && (t.drop 2).all closeCls then some noW
  else none

/-- Second half of the helper `se_token`: case-insensitive
`re.search(r'(0|1|yes|no)[\)\]\}\'\"\.\s]*$', ...)`: the leftmost position
at which a token is followed only by closing-class characters. -/
def seTokEnd : PyStr → Option PyStr
  | [] => none
  | t@(_ :: rest) =>
    match seTokEndHere t with
    | some tok => some tok
    | none => seTokEnd rest

/-- The helper `se_token` of `parse_model_answer`: a 0/1/yes/no token
anchored at the very start (allowing leading bracket-class characters) or at
the very end (allowing trailing bracket-class characters) of the stripped
string. -/
def se_token (s : PyStr) : Option PyStr :=
  let t := pyStrip s
  match seTokStart (t.dropWhile openCls) with
  | some tok => some tok
  | none => seTokEnd t

/-- Sentence-terminating punctuation, the class `[.!?]`. -/
def isTermCh (c : Char) : Bool := c == '.' || c == '!' || c == '?'

/-- Tier D of `parse_model_answer`: the spatial fallback is consulted only
when the text has no internal newline, at most one `[.!?]` character, and
length below 150. -/
def tier4 (q txt : PyStr) : Option Int :=
  if txt.contains '\n' = false ∧ txt.countP isTermCh ≤ 1 ∧ txt.length < 150
  then parse_spatial_relation q txt
  else none

/-- The first clause of a text: `re.search(r'[^.!?]+[.!?]?', s)`.  The
leftmost match starts at the first non-terminator character, extends over
the maximal run of non-terminators, and takes at most one terminator. -/
def firstClause (s : PyStr) : Option PyStr :=
  match s.dropWhile isTermCh with
  | [] => none
  | t@(_ :: _) =>
    some (t.takeWhile (fun c => !isTermCh c) ++
      (t.dropWhile (fun c => !isTermCh c)).take 1)

/-- Line-break characters recognised by Python `str.splitlines()`. -/
def isLineBreakCh (c : Char) : Bool :=
  c == '\n' || c == '\r' || c == '\x0b' || c == '\x0c' ||
    c == '\x1c' || c == '\x1d' || c == '\x1e' || c == '\u0085' ||
    c == '\u2028' || c == '\u2029'

/-- Worker for `pySplitlines`, structurally recursive on a fuel argument so
that it reduces definitionally; each recursive call consumes at least one
character, so fuel equal to the string length always suffices. -/
def splitlinesFuel : Nat → PyStr → List PyStr
  | _, [] => []
  | 0, _ :: _ => []
  | fuel + 1, c :: cs =>
    let line := (c :: cs).takeWhile (fun x => !isLineBreakCh x)
    match (c :: cs).dropWhile (fun x => !isLineBreakCh x) with
    | [] => [line]
    | '\r' :: '\n' :: r => line :: splitlinesFuel fuel r
    | _ :: r => line :: splitlinesFuel fuel r

/-- Python `str.splitlines()`: split at line breaks (treating `\r\n` as a
single break), with no empty final element for a trailing break. -/
def pySplitlines (s : PyStr) : List PyStr := splitlinesFuel s.length s

/-- Worker for `replaceAll`, structurally recursive on a fuel argument so
that it reduces definitionally; for a non-empty `old` each recursive call
consumes at least one character, so fuel equal to the string length always
suffices. -/
def replaceFuel (old : PyStr) : Nat → PyStr → PyStr
  | _, [] => []
  | 0, s => s
  | fuel + 1, c :: rest =>
    if startsWith (c :: rest) old then replaceFuel old fuel ((c :: rest).drop old.length)
    else c :: replaceFuel old fuel rest

/-- Python `s.replace(old, "")` for a non-empty `old`: delete the leftmost
occurrences of `old`, scanning left to right without overlap. -/
def replaceAll (s old : PyStr) : PyStr :=
  if old.isEmpty then s else replaceFuel old s.length s

/-- One iteration of the prompt-stripping loop: delete the occurrences of
the stripped line `l` from the accumulated text unless the line is blank. -/
def stripLineStep (acc l : PyStr) : PyStr :=
  let ls := pyStrip l
  if ls.isEmpty then acc else replaceAll acc ls

/-- The prompt-stripping loop of `parse_model_answer`: for every non-blank
stripped line of the prompt, delete its occurrences from the text. -/
def stripPromptLines (prompt txt : PyStr) : PyStr :=
  (pySplitlines prompt).foldl stripLineStep txt

/-- Tier E of `parse_model_answer`: run the spatial fallback on the stripped
first clause of the cleaned text. -/
def tier5 (q cleaned : PyStr) : Option Int :=
  match firstClause cleaned with
  | some g => parse_spatial_relation q (pyStrip g)
  | none => none

/-- The keywords of the final regex of `parse_model_answer`, in alternation
order.  Their first letters are pairwise distinct, so at any position at
most one alternative can match. -/
def kwWords : List PyStr :=
  [pstr "answer", pstr "correct answer", pstr "final answer",
    pstr "solution", pstr "response"]

/-- The trailing `\s*([10])` of the keyword regex: skip whitespace, then
require a 0/1 digit. -/
def wsDigit (t : PyStr) : Option Char :=
  match t.dropWhile isPySpace with
  | c :: _ => if c == '1' || c == '0' then some c else none
  | [] => none

/-- The optional separator `(?: is|:)?` followed by `\s*([10])`, with the
backtracking order of the regex engine: try " is", then ":", then the empty
separator. -/
def sepDigit (t : PyStr) : Option Char :=
  match (if ciPref (pstr " is") t then wsDigit (t.drop 3) else none) with
  | some c => some c
  | none =>
    match (if ciPref (pstr ":") t then wsDigit (t.drop 1) else none) with
    | some c => some c
    | none => wsDigit t

/-- Try the keywords in alternation order at one position of the text. -/
def kwTry (t : PyStr) : List PyStr → Option Char
  | [] => none
  | w :: ws =>
    match (if ciPref w t then sepDigit (t.drop w.length) else none) with
    | some c => some c
    | none => kwTry t ws

/-- Attempt the keyword regex at one position of the text. -/
def kwAt (t : PyStr) : Option Char := kwTry t kwWords

/-- Tier F of `parse_model_answer`: case-insensitive
`re.search(r'(?:answer|correct answer|final answer|solution|response)(?: is|:)?\s*([10])', ...)`,
returning the digit captured at the leftmost matching position. -/
def kwScan : PyStr → Option Char
  | [] => none
  | t@(_ :: rest) =>
    match kwAt t with
    | some c => some c
    | none => kwScan rest

/-- `parse_model_answer(ans, q, prompt)` from both evaluation scripts: the
ordered cascade of heuristics, returning the extracted 0/1 label (or `none`
for unparseable) together with the residual cleaned text used by the later
tiers. -/
def parse_model_answer (ans q prompt : PyStr) : Option Int × Option PyStr :=
  let txt := pyStrip ans
  match sdigit txt with
  | some d => (some (if d == '1' then 1 else 0), none)
  | none =>
    match syesno txt with
    | some y => (some (if y == yesW then 1 else 0), none)
    | none =>
      match se_token txt with
      | some t => (some (if t == oneW || t == yesW then 1 else 0), none)
      | none =>
        match tier4 q txt with
        | some sr => (some sr, none)
        | none =>
          let cleaned := stripPromptLines prompt txt
          match tier5 q cleaned with
          | some sr2 => (some sr2, some cleaned)
          | none =>
            match kwScan cleaned with
            | some c => (some (if c == '1' then 1 else 0), some cleaned)
            | none => (none, some cleaned)

/-- The anatomy-truth discriminator from `eval_run` of the anatomy script:
`real = 1 if (" to the left of " in q.lower() and cx1 > cx2) or
(" to the right of " in q.lower() and cx1 < cx2) else 0`. -/
def toLeftOfW : PyStr := pstr " to the left of "

/-- The spaced phrase " to the right of " tested by the discriminator. -/
def toRightOfW : PyStr := pstr " to the right of "

/-- The per-record anatomy ground truth `real` computed in `eval_run` from
the two resolved object-centre x-coordinates. -/
def anatomy_real (q : PyStr) (cx1 cx2 : Int) : Int :=
  if (hasSub (pyLower q) toLeftOfW ∧ cx1 > cx2) ∨
      (hasSub (pyLower q) toRightOfW ∧ cx1 < cx2) then 1 else 0

/-- The spatial-relation scan only ever produces `none`, `some 0` or
`some 1`. -/
theorem psrScan_cases (ql al : PyStr) (ps : List (PyStr × PyStr)) :
    psrScan ql al ps = none ∨ psrScan ql al ps = some 0 ∨
      psrScan ql al ps = some 1 := by
  induction ps with
  | nil => exact Or.inl rfl
  | cons p rest ih =>
    obtain ⟨d, opp⟩ := p
    simp only [psrScan]
    split_ifs <;> simp [ih]

/-- `parse_spatial_relation` only ever produces `none`, `some 0` or
`some 1`. -/
theorem psr_cases (q a : PyStr) :
    parse_spatial_relation q a = none ∨ parse_spatial_relation q a = some 0 ∨
      parse_spatial_relation q a = some 1 :=
  psrScan_cases _ _ _

/-- Tier D only ever produces `none`, `some 0` or `some 1`. -/
theorem tier4_cases (q txt : PyStr) :
    tier4 q txt = none ∨ tier4 q txt = some 0 ∨ tier4 q txt = some 1 := by
  unfold tier4
  split
  · exact psr_cases q txt
  · exact Or.inl rfl

/-- Tier E only ever produces `none`, `some 0` or `some 1`. -/
theorem tier5_cases (q c : PyStr) :
    tier5 q c = none ∨ tier5 q c = some 0 ∨ tier5 q c = some 1 := by
  unfold tier5
  split
  · exact psr_cases _ _
  · exact Or.inl rfl

/-- The label component of `parse_model_answer` is always `none`, `some 0`
or `some 1`: every tier of the cascade returns a binary label. -/
theorem parse_label_cases (ans q prompt : PyStr) :
    (parse_model_answer ans q prompt).1 = none ∨
      (parse_model_answer ans q prompt).1 = some 0 ∨
      (parse_model_answer ans q prompt).1 = some 1 := by
  unfold parse_model_answer
  dsimp only
  split
  · rename_i d _
    by_cases hd : d == '1' <;> simp [hd]
  · split
    · rename_i y _
      by_cases hy : y == yesW <;> simp [hy]
    · split
      · rename_i t _
        by_cases ht : (t == oneW || t == yesW) = true <;> simp [ht]
      · split
        · rename_i sr heq
          rcases tier4_cases q (pyStrip ans) with h | h | h <;>
            rw [heq] at h <;> simp_all
        · split
          · rename_i sr2 heq
            rcases tier5_cases q (stripPromptLines prompt (pyStrip ans)) with
              h | h | h <;> rw [heq] at h <;> simp_all
          · split
            · rename_i c heq
              by_cases hc : c == '1' <;> simp [hc]
            · simp

/-- Claim C1: each of the seven probe strings "0", "1", "(1)", "'0'",
"Yes.", "NO" and "  1  " is parsed to its binary label by
`parse_model_answer` for every question and prompt, never to the
unparseable outcome. -/
theorem claim_C1 (q prompt : PyStr) :
    parse_model_answer (pstr "0") q prompt = (some 0, none) ∧
    parse_model_answer (pstr "1") q prompt = (some 1, none) ∧
    parse_model_answer (pstr "(1)") q prompt = (some 1, none) ∧
    parse_model_answer [squote, '0', squote] q prompt = (some 0, none) ∧
    parse_model_answer (pstr "Yes.") q prompt = (some 1, none) ∧
    parse_model_answer (pstr "NO") q prompt = (some 0, none) ∧
    parse_model_answer (pstr "  1  ") q prompt = (some 1, none) :=
  ⟨rfl, rfl, rfl, rfl, rfl, rfl, rfl⟩

/-- Claim C5: on every answer string (empty, unbalanced brackets,
multi-line, arbitrary garbage) and every question and prompt, the answer
parser is a total function returning a result pair whose label component is
`none` (unparseable) or a label in {0, 1}; being a Lean function of the
embedding it cannot raise. -/
theorem claim_C5 (ans q prompt : PyStr) :
    ∃ r : Option Int × Option PyStr, parse_model_answer ans q prompt = r ∧
      (r.1 = none ∨ r.1 = some 0 ∨ r.1 = some 1) :=
  ⟨parse_model_answer ans q prompt, rfl, parse_label_cases ans q prompt⟩

/-- One step of the spatial-relation scan, flattened into guard-style
conditions. -/
theorem psrScan_flat (ql al d opp : PyStr) (rest : List (PyStr × PyStr)) :
    psrScan ql al ((d, opp) :: rest) =
      if hasSub ql d ∧ hasSub al d then some 1
      else if hasSub ql d ∧ hasSub al opp then some 0
      else psrScan ql al rest := by
  simp only [psrScan]
  split_ifs <;> simp_all

/-- Claim C6: `parse_spatial_relation` scans the pairs (above, below),
(below, above), (left, right), (right, left) in exactly that order; for the
first pair whose first word occurs in the question it returns 1 if that
word occurs in the answer and 0 if the opposite word occurs, otherwise it
proceeds to the next pair; when no pair applies (in particular when no
direction word occurs in the question at all) it returns none. -/
theorem claim_C6 (q a : PyStr) :
    parse_spatial_relation q a =
      if hasSub (pyLower q) aboveW ∧ hasSub (pyLower a) aboveW then some 1
      else if hasSub (pyLower q) aboveW ∧ hasSub (pyLower a) belowW then some 0
      else if hasSub (pyLower q) belowW ∧ hasSub (pyLower a) belowW then some 1
      else if hasSub (pyLower q) belowW ∧ hasSub (pyLower a) aboveW then some 0
      else if hasSub (pyLower q) leftW ∧ hasSub (pyLower a) leftW then some 1
      else if hasSub (pyLower q) leftW ∧ hasSub (pyLower a) rightW then some 0
      else if hasSub (pyLower q) rightW ∧ hasSub (pyLower a) rightW then some 1
      else if hasSub (pyLower q) rightW ∧ hasSub (pyLower a) leftW then some 0
      else none := by
  simp only [parse_spatial_relation, psrPairs]
  rw [psrScan_flat, psrScan_flat, psrScan_flat, psrScan_flat]
  simp only [psrScan]

/-- Claim C3: for a question asking " to the left of " or " to the right
of " (the spaced phrases tested by the source), the derived anatomy ground
truth is 1 exactly when (asks-left and cx1 > cx2) or (asks-right and
cx1 < cx2), and 0 otherwise. -/
theorem claim_C3 (q : PyStr) (cx1 cx2 : Int)
    (h : hasSub (pyLower q) toLeftOfW = true ∨
      hasSub (pyLower q) toRightOfW = true) :
    (anatomy_real q cx1 cx2 = 1 ↔
      (hasSub (pyLower q) toLeftOfW = true ∧ cx1 > cx2) ∨
        (hasSub (pyLower q) toRightOfW = true ∧ cx1 < cx2)) ∧
    (anatomy_real q cx1 cx2 = 0 ↔
      ¬ ((hasSub (pyLower q) toLeftOfW = true ∧ cx1 > cx2) ∨
        (hasSub (pyLower q) toRightOfW = true ∧ cx1 < cx2))) := by
  unfold anatomy_real
  split_ifs with hc <;> simp_all

/-- Witness for C3 at spec scenario 3: the question "Is the liver to the
left of the spleen?" with liver at x = 120 and spleen at x = 80 yields
anatomy truth 1. -/
theorem claim_C3_witness :
    hasSub (pyLower (pstr "Is the liver to the left of the spleen?"))
        toLeftOfW = true ∧
    anatomy_real (pstr "Is the liver to the left of the spleen?") 120 80 = 1 :=
  ⟨by decide,
    ((claim_C3 (pstr "Is the liver to the left of the spleen?") 120 80
        (Or.inl (by decide))).1).mpr (Or.inl ⟨by decide, by decide⟩)⟩

/-- Number of index positions at which two label lists agree. -/
def countEq : List Int → List Int → Nat
  | t :: ts, p :: ps => (if t = p then 1 else 0) + countEq ts ps
  | _, _ => 0

/-- Modelled from the spec: `sklearn.metrics.accuracy_score` (the library is
external to the repository) — the fraction of exactly-equal label pairs,
undefined (NaN, modelled as `none`) on empty input. -/
def accuracy_score (targs preds : List Int) : Option ℚ :=
  if targs.length = 0 then none
  else some ((countEq targs preds : ℚ) / (targs.length : ℚ))

/-- True positives: reference label 1 predicted as 1. -/
def tpCount (targs preds : List Int) : Nat :=
  (targs.zip preds).countP fun tp => tp.1 == 1 && tp.2 == 1

/-- False positives: reference label not 1 predicted as 1. -/
def fpCount (targs preds : List Int) : Nat :=
  (targs.zip preds).countP fun tp => !(tp.1 == 1) && tp.2 == 1

/-- False negatives: reference label 1 predicted as not 1. -/
def fnCount (targs preds : List Int) : Nat :=
  (targs.zip preds).countP fun tp => tp.1 == 1 && !(tp.2 == 1)

/-- Modelled from the spec: `sklearn.metrics.f1_score` with positive class 1
and `zero_division=0` (the library is external to the repository) —
`2*tp / (2*tp + fp + fn)`, defined as 0 when the denominator vanishes. -/
def f1_score (targs preds : List Int) : ℚ :=
  let tp := tpCount targs preds
  let fp := fpCount targs preds
  let fn := fnCount targs preds
  if 2 * tp + fp + fn = 0 then 0
  else ((2 * tp : Nat) : ℚ) / ((2 * tp + fp + fn : Nat) : ℚ)

/-- One element of a `results_call` list of a run file, as read by the image
evaluation script. -/
structure QARecord where
  question : PyStr
  model_answer : PyStr
  expected_answer : Int
  entire_prompt : PyStr

/-- The accumulators of the record loop of `evaluate_run`. -/
structure EvalState where
  preds : List Int
  targs : List Int
  correct : Nat
  incorrect : Nat
  unsure : Nat

/-- Initial accumulators of `evaluate_run`. -/
def initEvalState : EvalState := ⟨[], [], 0, 0, 0⟩

/-- The body of the record loop of `evaluate_run`: parse the model answer;
when unparseable, substitute `1 - expected` and count the record as unsure;
then tally correctness and append the prediction/target pair. -/
def evalStep (st : EvalState) (r : QARecord) : EvalState :=
  let exp := r.expected_answer
  let parsed := (parse_model_answer r.model_answer r.question r.entire_prompt).1
  let pred : Int :=
    match parsed with
    | some p => p
    | none => 1 - exp
  let unsure' : Nat :=
    match parsed with
    | some _ => st.unsure
    | none => st.unsure + 1
  { preds := st.preds ++ [pred]
    targs := st.targs ++ [exp]
    correct := if pred = exp then st.correct + 1 else st.correct
    incorrect := if pred = exp then st.incorrect else st.incorrect + 1
    unsure := unsure' }

/-- The accumulator state after the double loop of `evaluate_run` over all
entries' `results_call` lists. -/
def evalFold (data : List (List QARecord)) : EvalState :=
  data.foldl (fun st entry => entry.foldl evalStep st) initEvalState

/-- The per-run result dictionary of `evaluate_run`. -/
structure RunMetrics where
  accuracy : Option ℚ
  f1 : ℚ
  correct_count : Nat
  incorrect_count : Nat
  unsure_count : Nat

/-- `evaluate_run` of the image evaluation script (the JSON file is already
decoded into the entries' record lists). -/
def evaluate_run (data : List (List QARecord)) : RunMetrics :=
  let st := evalFold data
  { accuracy := accuracy_score st.targs st.preds
    f1 := f1_score st.targs st.preds
    correct_count := st.correct
    incorrect_count := st.incorrect
    unsure_count := st.unsure }

/-- Total number of QARecords in a run file. -/
def numRecords (data : List (List QARecord)) : Nat :=
  (data.map List.length).sum

/-- Claim C2: for a record whose answer the parser cannot parse, the
evaluation step substitutes the prediction `1 - expected_answer`, counts the
record as incorrect (never excluding it), and increments the unsure counter
by exactly one. -/
theorem claim_C2 (st : EvalState) (r : QARecord)
    (h : (parse_model_answer r.model_answer r.question r.entire_prompt).1 = none) :
    (evalStep st r).preds = st.preds ++ [1 - r.expected_answer] ∧
    (evalStep st r).targs = st.targs ++ [r.expected_answer] ∧
    (evalStep st r).unsure = st.unsure + 1 ∧
    (evalStep st r).incorrect = st.incorrect + 1 ∧
    (evalStep st r).correct = st.correct := by
  have hne : ¬ (1 - r.expected_answer = r.expected_answer) := by omega
  simp [evalStep, h, hne]

/-- Concrete unparseable record from spec scenario 2 (an answer with none of
the tokens and no usable direction word). -/
def c2rec : QARecord :=
  { question := pstr ""
    model_answer := pstr "I think it is hard to tell."
    expected_answer := 1
    entire_prompt := pstr "" }

/-- Witness for C2: the scenario-2 record is unparseable, so the step forces
prediction 0 = 1 - expected, scores it incorrect and bumps unsure. -/
theorem claim_C2_witness :
    (parse_model_answer c2rec.model_answer c2rec.question c2rec.entire_prompt).1 = none ∧
    ((evalStep initEvalState c2rec).preds =
        initEvalState.preds ++ [1 - c2rec.expected_answer] ∧
      (evalStep initEvalState c2rec).targs =
        initEvalState.targs ++ [c2rec.expected_answer] ∧
      (evalStep initEvalState c2rec).unsure = initEvalState.unsure + 1 ∧
      (evalStep initEvalState c2rec).incorrect = initEvalState.incorrect + 1 ∧
      (evalStep initEvalState c2rec).correct = initEvalState.correct) :=
  ⟨by decide, claim_C2 initEvalState c2rec (by decide)⟩

/-- Invariant of the evaluation accumulators after processing `n` records
whose expected answers are binary: all stored labels are binary, the
correct/incorrect tallies partition the records, and every unsure record
was counted among the incorrect ones. -/
def EvalInv (st : EvalState) (n : Nat) : Prop :=
  (∀ p ∈ st.preds, p = 0 ∨ p = 1) ∧ (∀ t ∈ st.targs, t = 0 ∨ t = 1) ∧
    st.correct + st.incorrect = n ∧ st.unsure ≤ st.incorrect

/-- One evaluation step preserves the invariant. -/
theorem evalStep_inv (st : EvalState) (r : QARecord) (n : Nat)
    (hr : r.expected_answer = 0 ∨ r.expected_answer = 1)
    (hinv : EvalInv st n) : EvalInv (evalStep st r) (n + 1) := by
  obtain ⟨hp, ht, hc, hu⟩ := hinv
  have hlab := parse_label_cases r.model_answer r.question r.entire_prompt
  rcases hparse :
      (parse_model_answer r.model_answer r.question r.entire_prompt).1 with _ | p
  · have hpred : (1 - r.expected_answer) = 0 ∨ (1 - r.expected_answer) = 1 := by
      omega
    have hne : ¬ ((1 - r.expected_answer) = r.expected_answer) := by omega
    refine ⟨?_, ?_, ?_, ?_⟩ <;> simp [evalStep, hparse, hne]
    · intro p hmem
      rcases hmem with hmem | hmem
      · exact hp p hmem
      · omega
    · intro t hmem
      rcases hmem with hmem | hmem
      · exact ht t hmem
      · subst hmem
        exact hr
    · omega
    · omega
  · rw [hparse] at hlab
    have hpb : p = 0 ∨ p = 1 := by
      rcases hlab with hl | hl | hl <;> simp_all
    refine ⟨?_, ?_, ?_, ?_⟩ <;> simp [evalStep, hparse]
    · intro x hmem
      rcases hmem with hmem | hmem
      · exact hp x hmem
      · simp_all
    · intro t hmem
      rcases hmem with hmem | hmem
      · exact ht t hmem
      · subst hmem
        exact hr
    · by_cases hpe : p = r.expected_answer <;> simp [hpe] <;> omega
    · by_cases hpe : p = r.expected_answer <;> simp [hpe] <;> omega

/-- The inner fold over one entry's records preserves the invariant. -/
theorem evalFold_inner_inv (rs : List QARecord) (st : EvalState) (n : Nat)
    (hr : ∀ r ∈ rs, r.expected_answer = 0 ∨ r.expected_answer = 1)
    (hinv : EvalInv st n) : EvalInv (rs.foldl evalStep st) (n + rs.length) := by
  induction rs generalizing st n with
  | nil => simpa using hinv
  | cons r rs ih =>
    simp only [List.foldl_cons, List.length_cons]
    have hstep := evalStep_inv st r n (hr r (by simp)) hinv
    have htail := ih (evalStep st r) (n + 1)
      (fun x hx => hr x (by simp [hx])) hstep
    rw [show n + (rs.length + 1) = (n + 1) + rs.length by omega]
    exact htail

/-- The outer fold over all entries preserves the invariant. -/
theorem evalFold_outer_inv (data : List (List QARecord)) (st : EvalState)
    (n : Nat)
    (hr : ∀ e ∈ data, ∀ r ∈ e, r.expected_answer = 0 ∨ r.expected_answer = 1)
    (hinv : EvalInv st n) :
    EvalInv (data.foldl (fun acc e => e.foldl evalStep acc) st)
      (n + numRecords data) := by
  induction data generalizing st n with
  | nil => simpa [numRecords] using hinv
  | cons e es ih =>
    simp only [List.foldl_cons]
    have h1 := evalFold_inner_inv e st n (fun r hrr => hr e (by simp) r hrr) hinv
    have h2 := ih (e.foldl evalStep st) (n + e.length)
      (fun x hx => hr x (by simp [hx])) h1
    rw [show n + numRecords (e :: es) = (n + e.length) + numRecords es by
      simp [numRecords]; omega]
    exact h2

/-- Claim C10: for a run file all of whose records have binary expected
answers, every accumulated predicted and target label is binary,
`correct_count + incorrect_count` equals the total number of records, and
`unsure_count ≤ incorrect_count` (every unsure record is scored
incorrect). -/
theorem claim_C10 (data : List (List QARecord))
    (hr : ∀ e ∈ data, ∀ r ∈ e, r.expected_answer = 0 ∨ r.expected_answer = 1) :
    (∀ p ∈ (evalFold data).preds, p = 0 ∨ p = 1) ∧
    (∀ t ∈ (evalFold data).targs, t = 0 ∨ t = 1) ∧
    (evaluate_run data).correct_count + (evaluate_run data).incorrect_count =
      numRecords data ∧
    (evaluate_run data).unsure_count ≤ (evaluate_run data).incorrect_count := by
  have h := evalFold_outer_inv data initEvalState 0 hr
    ⟨by simp [initEvalState], by simp [initEvalState], by simp [initEvalState],
      by simp [initEvalState]⟩
  obtain ⟨h1, h2, h3, h4⟩ := h
  exact ⟨h1, h2, by simpa [evalFold] using h3, by simpa [evalFold] using h4⟩

/-- Concrete two-record run from spec scenario 1. -/
def c10data : List (List QARecord) :=
  [[{ question := pstr ""
      model_answer := pstr "1"
      expected_answer := 1
      entire_prompt := pstr "" },
    { question := pstr ""
      model_answer := pstr "No"
      expected_answer := 0
      entire_prompt := pstr "" }]]

/-- Witness for C10 at the scenario-1 run file. -/
theorem claim_C10_witness :
    (∀ e ∈ c10data, ∀ r ∈ e,
      r.expected_answer = 0 ∨ r.expected_answer = 1) ∧
    ((∀ p ∈ (evalFold c10data).preds, p = 0 ∨ p = 1) ∧
      (∀ t ∈ (evalFold c10data).targs, t = 0 ∨ t = 1) ∧
      (evaluate_run c10data).correct_count +
          (evaluate_run c10data).incorrect_count = numRecords c10data ∧
      (evaluate_run c10data).unsure_count ≤
        (evaluate_run c10data).incorrect_count) :=
  ⟨by decide, claim_C10 c10data (by decide)⟩

/-- Worker for Python `str.split()` (split on whitespace runs, discarding
empties): the accumulator holds the reversed current word. -/
def splitWsAcc : PyStr → PyStr → List PyStr
  | [], acc => if acc.isEmpty then [] else [acc.reverse]
  | c :: cs, acc =>
    if isPySpace c then
      if acc.isEmpty then splitWsAcc cs [] else acc.reverse :: splitWsAcc cs []
    else splitWsAcc cs (c :: acc)

/-- Python `str.split()` with no separator argument. -/
def pySplitWs (s : PyStr) : List PyStr := splitWsAcc s []

/-- Python `"_".join(parts)`. -/
def joinU : List PyStr → PyStr
  | [] => []
  | [w] => w
  | w :: ws => w ++ pstr "_" ++ joinU ws

/-- `canon_name` from the anatomy script: lower-case and trim, split on
whitespace; if the first word is "left" or "right" move it to the end after
an underscore, otherwise join all words with underscores. -/
def canon_name (name : PyStr) : PyStr :=
  let nm := pyStrip (pyLower name)
  let parts := pySplitWs nm
  match parts with
  | [] => nm
  | p :: ps =>
    if p = leftW ∨ p = rightW then joinU ps ++ pstr "_" ++ p
    else joinU (p :: ps)

/-- The lazy tail group `(.+?)\?` of the object-extraction regex: the
shortest non-empty run of non-newline characters followed by a literal
question mark (`.` does not match a newline). -/
def g2Scan : PyStr → PyStr → Option PyStr
  | [], _ => none
  | c :: rest, accrev =>
    if c = '\n' then none
    else
      match rest with
      | '?' :: _ => some (c :: accrev).reverse
      | _ => g2Scan rest (c :: accrev)

/-- The part of the object-extraction regex after the first lazy group:
` to the (left|right) of the (.+?)\?` (case-insensitive; the two side
alternatives start with distinct letters). -/
def afterG1 (t : PyStr) : Option PyStr :=
  if ciPref (pstr " to the ") t then
    let u := t.drop 8
    if ciPref (pstr "left of the ") u then g2Scan (u.drop 12) []
    else if ciPref (pstr "right of the ") u then g2Scan (u.drop 13) []
    else none
  else none

/-- The first lazy group `(.+?)` of the object-extraction regex: grow the
group one (non-newline) character at a time until the rest of the pattern
matches. -/
def g1Scan : PyStr → PyStr → Option (PyStr × PyStr)
  | [], _ => none
  | c :: rest, g1rev =>
    if c = '\n' then none
    else
      match afterG1 rest with
      | some o2 => some ((c :: g1rev).reverse, o2)
      | none => g1Scan rest (c :: g1rev)

/-- Attempt the object-extraction regex at one position. -/
def extractAt (t : PyStr) : Option (PyStr × PyStr) :=
  if ciPref (pstr "is the ") t then g1Scan (t.drop 7) [] else none

/-- Leftmost-match search for the object-extraction regex. -/
def extractScan : PyStr → Option (PyStr × PyStr)
  | [] => none
  | t@(_ :: rest) =>
    match extractAt t with
    | some r => some r
    | none => extractScan rest

/-- `re.search(r'is the (.+?) to the (left|right) of the (.+?)\?', q, re.I)`
from `eval_run` of the anatomy script, returning groups 1 and 3. -/
def extractObjs (q : PyStr) : Option (PyStr × PyStr) := extractScan q

/-- Python falsiness of an optional object-name string (`not obj`): `None`
or the empty string. -/
def objFalsy : Option PyStr → Bool
  | none => true
  | some s => s.isEmpty

/-- One element of a `results_call` list as read by the anatomy script;
text fields are read with a `""` default and `expected_answer` and the
object names with a `None` default. -/
structure AnatRecord where
  question : PyStr
  model_answer : PyStr
  expected_answer : Option Int
  entire_prompt : PyStr
  object1_name : Option PyStr
  object2_name : Option PyStr

/-- One entry of an anatomy run file. -/
structure AnatEntry where
  file_name : PyStr
  results_call : List AnatRecord

/-- The centre map of the anatomy script: image filename → structure name →
(center_x, center_y). -/
abbrev CentreMap := PyStr → Option (PyStr → Option (Int × Int))

/-- The accumulators of the record loop of the anatomy script's
`eval_run`. -/
structure AnatState where
  anat_preds : List Int
  anat_targs : List Int
  img_preds : List Int
  img_targs : List Int
  anat_corr : Nat
  anat_wrong : Nat
  anat_tot : Nat
  img_corr : Nat
  img_wrong : Nat
  img_tot : Nat

/-- Initial accumulators of the anatomy `eval_run`. -/
def initAnatState : AnatState := ⟨[], [], [], [], 0, 0, 0, 0, 0, 0⟩

/-- The body of the record loop of the anatomy `eval_run`: skip questions
without "left"/"right"; parse the answer (substituting the opposite of the
expected answer, or of 1 when it is absent, for unparseable); tally the
image view when an expected answer exists; resolve the two object names
(from the record or the question) and, when both centres are found, tally
the anatomy view against the derived ground truth. -/
def anatStep (cmap : CentreMap) (fn : PyStr) (st : AnatState)
    (r : AnatRecord) : AnatState :=
  let q := r.question
  if hasSub (pyLower q) leftW = false ∧ hasSub (pyLower q) rightW = false then st
  else
    let exp := r.expected_answer
    let parsed := (parse_model_answer r.model_answer q r.entire_prompt).1
    let pa : Int :=
      match parsed with
      | some p => p
      | none => 1 - (match exp with | some e => e | none => 1)
    let st1 :=
      match exp with
      | some e =>
        { st with
          img_tot := st.img_tot + 1
          img_corr := st.img_corr + (if pa = e then 1 else 0)
          img_wrong := st.img_wrong + (if pa ≠ e then 1 else 0)
          img_preds := st.img_preds ++ [pa]
          img_targs := st.img_targs ++ [e] }
      | none => st
    let objs : Option PyStr × Option PyStr :=
      if objFalsy r.object1_name || objFalsy r.object2_name then
        match extractObjs q with
        | some (a, b) => (some (pyStrip a), some (pyStrip b))
        | none => (r.object1_name, r.object2_name)
      else (r.object1_name, r.object2_name)
    match cmap fn with
    | none => st1
    | some cm =>
      match objs.1, objs.2 with
      | some o1, some o2 =>
        if o1.isEmpty || o2.isEmpty then st1
        else
          match cm (canon_name o1), cm (canon_name o2) with
          | some (cx1, _), some (cx2, _) =>
            let real := anatomy_real q cx1 cx2
            { st1 with
              anat_tot := st1.anat_tot + 1
              anat_corr := st1.anat_corr + (if pa = real then 1 else 0)
              anat_wrong := st1.anat_wrong + (if pa ≠ real then 1 else 0)
              anat_preds := st1.anat_preds ++ [pa]
              anat_targs := st1.anat_targs ++ [real] }
          | _, _ => st1
      | _, _ => st1

/-- The accumulator state after the double loop of the anatomy
`eval_run`. -/
def anatFold (cmap : CentreMap) (data : List AnatEntry) : AnatState :=
  data.foldl
    (fun st e => e.results_call.foldl (anatStep cmap e.file_name) st)
    initAnatState

/-- The per-run result dictionary of the anatomy `eval_run`; the
`float('nan')` sentinels of the empty-tally guards are modelled as
`none`. -/
structure AnatRunMetrics where
  anat_acc : Option ℚ
  anat_f1 : Option ℚ
  anat_correct : Nat
  anat_incorrect : Nat
  anat_total : Nat
  img_acc : Option ℚ
  img_f1 : Option ℚ
  img_correct : Nat
  img_incorrect : Nat
  img_total : Nat

/-- `eval_run` of the anatomy evaluation script. -/
def eval_run (cmap : CentreMap) (data : List AnatEntry) : AnatRunMetrics :=
  let st := anatFold cmap data
  { anat_acc := if st.anat_targs.isEmpty then none
      else accuracy_score st.anat_targs st.anat_preds
    anat_f1 := if st.anat_targs.isEmpty then none
      else some (f1_score st.anat_targs st.anat_preds)
    anat_correct := st.anat_corr
    anat_incorrect := st.anat_wrong
    anat_total := st.anat_tot
    img_acc := if st.img_targs.isEmpty then none
      else accuracy_score st.img_targs st.img_preds
    img_f1 := if st.img_targs.isEmpty then none
      else some (f1_score st.img_targs st.img_preds)
    img_correct := st.img_corr
    img_incorrect := st.img_wrong
    img_total := st.img_tot }

/-- Total number of records in an anatomy run file. -/
def numAnatRecords (data : List AnatEntry) : Nat :=
  (data.map (fun e => e.results_call.length)).sum

/-- A run file with zero records folds to the initial accumulators (image
script). -/
theorem evalFold_empty (data : List (List QARecord))
    (h : numRecords data = 0) : evalFold data = initEvalState := by
  induction data with
  | nil => rfl
  | cons e es ih =>
    have hlen : e.length = 0 ∧ numRecords es = 0 := by
      simp only [numRecords, List.map_cons, List.sum_cons] at h ⊢
      constructor <;> omega
    have he : e = [] := List.length_eq_zero.mp hlen.1
    subst he
    simpa [evalFold] using ih hlen.2

/-- A run file with zero records folds to the initial accumulators (anatomy
script). -/
theorem anatFold_empty (cmap : CentreMap) (data : List AnatEntry)
    (h : numAnatRecords data = 0) : anatFold cmap data = initAnatState := by
  induction data with
  | nil => rfl
  | cons e es ih =>
    have hlen : e.results_call.length = 0 ∧ numAnatRecords es = 0 := by
      simp only [numAnatRecords, List.map_cons, List.sum_cons] at h ⊢
      constructor <;> omega
    have he : e.results_call = [] := List.length_eq_zero.mp hlen.1
    simpa [anatFold, he] using ih hlen.2

/-- Claim C7: evaluating a run file with zero QARecords is defined and total
in both scripts: the image script yields accuracy `none`
(NaN/undefined, per the modelled zero-sample behaviour), F1 = 0 (the
zero-division policy) and zero counts; the anatomy script's explicit guards
yield NaN (`none`) for all four metrics and zero counts. -/
theorem claim_C7 (d1 : List (List QARecord)) (d2 : List AnatEntry)
    (cmap : CentreMap) (h1 : numRecords d1 = 0) (h2 : numAnatRecords d2 = 0) :
    evaluate_run d1 =
      { accuracy := none, f1 := 0, correct_count := 0, incorrect_count := 0,
        unsure_count := 0 } ∧
    eval_run cmap d2 =
      { anat_acc := none, anat_f1 := none, anat_correct := 0,
        anat_incorrect := 0, anat_total := 0, img_acc := none,
        img_f1 := none, img_correct := 0, img_incorrect := 0,
        img_total := 0 } := by
  constructor
  · unfold evaluate_run
    rw [evalFold_empty d1 h1]
    rfl
  · unfold eval_run
    rw [anatFold_empty cmap d2 h2]
    rfl

/-- Witness for C7 at the empty run files. -/
theorem claim_C7_witness :
    (numRecords [] = 0 ∧ numAnatRecords [] = 0) ∧
    (evaluate_run [] =
      { accuracy := none, f1 := 0, correct_count := 0, incorrect_count := 0,
        unsure_count := 0 } ∧
    eval_run (fun _ => none) [] =
      { anat_acc := none, anat_f1 := none, anat_correct := 0,
        anat_incorrect := 0, anat_total := 0, img_acc := none,
        img_f1 := none, img_correct := 0, img_incorrect := 0,
        img_total := 0 }) :=
  ⟨⟨rfl, rfl⟩, claim_C7 [] [] (fun _ => none) rfl rfl⟩

/-- Modelled from the spec: `statistics.mean` (Python standard library,
external to the repository) — the arithmetic mean; the scripts apply it
only to non-empty lists.  Exact float values are modelled as rationals. -/
def pymean (xs : List ℚ) : ℚ := xs.sum / (xs.length : ℚ)

/-- The sample variance `Σ (x - mean)² / (n - 1)`; meaningful for lists of
at least two elements, which is what the `safe_stdev` guard ensures. -/
def sampleVar (xs : List ℚ) : ℚ :=
  (xs.map (fun x => (x - pymean xs) ^ 2)).sum / ((xs.length : ℚ) - 1)

/-- Modelled from the spec: `statistics.stdev` (Python standard library,
external to the repository) — the sample (n-1) standard deviation; the
square root makes this the one noncomputable definition of the
development. -/
noncomputable def pystdev (xs : List ℚ) : ℝ :=
  Real.sqrt ((sampleVar xs : ℚ) : ℝ)

/-- `safe_stdev` from both scripts: `stdev(x) if len(x) > 1 else 0.0`. -/
noncomputable def safe_stdev (xs : List ℚ) : ℝ :=
  if xs.length > 1 then pystdev xs else 0

/-- The per-run metric values consumed by the aggregation step of
`process_runs` (each run's accuracy and F1 as floats). -/
structure RunScores where
  accuracy : ℚ
  f1 : ℚ

/-- The `aggregated` dictionary built by `process_runs`. -/
structure AggMetrics where
  accuracy_mean : ℚ
  accuracy_std : ℝ
  f1_mean : ℚ
  f1_std : ℝ

/-- The aggregation step of `process_runs`: mean and guarded sample
standard deviation of the per-run accuracies and F1 scores. -/
noncomputable def process_runs_agg (rms : List RunScores) : AggMetrics :=
  let accs := rms.map RunScores.accuracy
  let f1s := rms.map RunScores.f1
  { accuracy_mean := pymean accs
    accuracy_std := safe_stdev accs
    f1_mean := pymean f1s
    f1_std := safe_stdev f1s }

/-- Claim C8: the aggregator returns the arithmetic mean of the per-run
accuracies and F1 scores with their sample standard deviation, which is 0
for sequences of fewer than two runs; in particular accuracies
[0.8, 0.9, 0.85] yield mean 0.85 and sample (not population) standard
deviation 0.05. -/
theorem claim_C8 :
    (∀ rms : List RunScores,
      (process_runs_agg rms).accuracy_mean =
        (rms.map RunScores.accuracy).sum / (rms.length : ℚ) ∧
      (process_runs_agg rms).f1_mean =
        (rms.map RunScores.f1).sum / (rms.length : ℚ)) ∧
    (∀ rm : RunScores,
      (process_runs_agg [rm]).accuracy_std = 0 ∧
      (process_runs_agg [rm]).f1_std = 0) ∧
    (process_runs_agg
      [⟨4/5, 0⟩, ⟨9/10, 0⟩, ⟨17/20, 0⟩]).accuracy_mean = 17/20 ∧
    (process_runs_agg
      [⟨4/5, 0⟩, ⟨9/10, 0⟩, ⟨17/20, 0⟩]).accuracy_std = 1/20 := by
  refine ⟨?_, ?_, ?_, ?_⟩
  · intro rms
    constructor <;> simp [process_runs_agg, pymean]
  · intro rm
    constructor <;> simp [process_runs_agg, safe_stdev]
  · norm_num [process_runs_agg, pymean]
  · have hmap : ([⟨4/5, 0⟩, ⟨9/10, 0⟩, ⟨17/20, 0⟩] : List RunScores).map
        RunScores.accuracy = [4/5, 9/10, 17/20] := rfl
    have hvar : sampleVar [4/5, 9/10, 17/20] = 1/400 := by
      norm_num [sampleVar, pymean]
    simp only [process_runs_agg, hmap, safe_stdev, pystdev]
    rw [if_pos (by norm_num)]
    rw [hvar]
    rw [show ((1/400 : ℚ) : ℝ) = (1/20 : ℝ) ^ 2 by norm_num]
    exact Real.sqrt_sq (by norm_num)

/-- Splitting step on a non-space character: extend the current word. -/
theorem splitWsAcc_nonspace (c : Char) (cs acc : PyStr)
    (h : isPySpace c = false) :
    splitWsAcc (c :: cs) acc = splitWsAcc cs (c :: acc) := by
  simp [splitWsAcc, h]

/-- Splitting step on a space character: flush the current word. -/
theorem splitWsAcc_space (c : Char) (cs acc : PyStr) (h : isPySpace c = true) :
    splitWsAcc (c :: cs) acc =
      if acc.isEmpty then splitWsAcc cs []
      else acc.reverse :: splitWsAcc cs [] := by
  simp [splitWsAcc, h]

/-- Splitting a non-empty all-non-space string yields one word: the pending
accumulator followed by the string. -/
theorem splitWsAcc_all_nonspace (rest : PyStr) (acc : PyStr) (hne : rest ≠ [])
    (h : ∀ c ∈ rest, isPySpace c = false) :
    splitWsAcc rest acc = [acc.reverse ++ rest] := by
  induction rest generalizing acc with
  | nil => cases hne rfl
  | cons c cs ih =>
    have hc : isPySpace c = false := h c (by simp)
    rw [splitWsAcc_nonspace c cs acc hc]
    by_cases hcs : cs = []
    · subst hcs
      simp [splitWsAcc]
    · rw [ih (c :: acc) hcs (fun x hx => h x (by simp [hx]))]
      simp

/-- Lower-casing fixes a string of already-lower-case characters. -/
theorem pyLower_fixed (s : PyStr) (h : ∀ c ∈ s, Char.toLower c = c) :
    pyLower s = s := by
  induction s with
  | nil => rfl
  | cons c cs ih =>
    have h1 := h c (by simp)
    have h2 := ih (fun x hx => h x (by simp [hx]))
    simp only [pyLower, List.map_cons] at h2 ⊢
    rw [h1, h2]

/-- `canon_name` moves a leading "left"/"right" qualifier behind the rest of
the (single-word, lower-case) name, joined by an underscore. -/
theorem canon_name_move (side rest : PyStr)
    (hside : side = leftW ∨ side = rightW) (hne : rest ≠ [])
    (h : ∀ c ∈ rest, isPySpace c = false ∧ Char.toLower c = c) :
    canon_name (side ++ ' ' :: rest) = rest ++ '_' :: side := by
  have hlowrest : pyLower rest = rest :=
    pyLower_fixed rest (fun c hc => (h c hc).2)
  have hrevne : rest.reverse ≠ [] :=
    fun hr => hne (List.reverse_eq_nil_iff.mp hr)
  obtain ⟨cl, cls, hrev⟩ := List.exists_cons_of_ne_nil hrevne
  have hclmem : cl ∈ rest := by
    have hm : cl ∈ rest.reverse := by
      rw [hrev]
      exact List.mem_cons_self _ _
    exact List.mem_reverse.mp hm
  have hclns : isPySpace cl = false := (h cl hclmem).1
  rcases hside with hs | hs <;> subst hs
  · have hlower : pyLower (leftW ++ ' ' :: rest) = leftW ++ ' ' :: rest := by
      simp only [pyLower, List.map_append, List.map_cons]
      rw [show List.map Char.toLower rest = rest from hlowrest]
      rfl
    have hrw : (leftW ++ ' ' :: rest).reverse =
        cl :: (cls ++ (' ' :: leftW.reverse)) := by
      rw [List.reverse_append, List.reverse_cons, hrev]
      simp
    have hstrip : pyStrip (leftW ++ ' ' :: rest) = leftW ++ ' ' :: rest := by
      unfold pyStrip
      rw [show leftW ++ ' ' :: rest = 'l' :: (pstr "eft " ++ rest) from rfl]
      rw [List.dropWhile_cons_of_neg (by decide)]
      rw [show ('l' : Char) :: (pstr "eft " ++ rest) = leftW ++ ' ' :: rest
        from rfl]
      rw [hrw, List.dropWhile_cons_of_neg (by simp [hclns]), ← hrw,
        List.reverse_reverse]
    have hsplit : pySplitWs (leftW ++ ' ' :: rest) = [leftW, rest] := by
      show splitWsAcc ('l' :: 'e' :: 'f' :: 't' :: ' ' :: rest) [] =
        [leftW, rest]
      rw [splitWsAcc_nonspace _ _ _ (by decide),
        splitWsAcc_nonspace _ _ _ (by decide),
        splitWsAcc_nonspace _ _ _ (by decide),
        splitWsAcc_nonspace _ _ _ (by decide),
        splitWsAcc_space _ _ _ (by decide)]
      rw [if_neg (by decide)]
      rw [splitWsAcc_all_nonspace rest [] hne (fun c hc => (h c hc).1)]
      rfl
    simp only [canon_name, hlower, hstrip, hsplit]
    rw [if_pos (Or.inl trivial)]
    simp only [joinU, List.append_assoc]
    rfl
  · have hlower : pyLower (rightW ++ ' ' :: rest) = rightW ++ ' ' :: rest := by
      simp only [pyLower, List.map_append, List.map_cons]
      rw [show List.map Char.toLower rest = rest from hlowrest]
      rfl
    have hrw : (rightW ++ ' ' :: rest).reverse =
        cl :: (cls ++ (' ' :: rightW.reverse)) := by
      rw [List.reverse_append, List.reverse_cons, hrev]
      simp
    have hstrip : pyStrip (rightW ++ ' ' :: rest) = rightW ++ ' ' :: rest := by
      unfold pyStrip
      rw [show rightW ++ ' ' :: rest = 'r' :: (pstr "ight " ++ rest) from rfl]
      rw [List.dropWhile_cons_of_neg (by decide)]
      rw [show ('r' : Char) :: (pstr "ight " ++ rest) = rightW ++ ' ' :: rest
        from rfl]
      rw [hrw, List.dropWhile_cons_of_neg (by simp [hclns]), ← hrw,
        List.reverse_reverse]
    have hsplit : pySplitWs (rightW ++ ' ' :: rest) = [rightW, rest] := by
      show splitWsAcc ('r' :: 'i' :: 'g' :: 'h' :: 't' :: ' ' :: rest) [] =
        [rightW, rest]
      rw [splitWsAcc_nonspace _ _ _ (by decide),
        splitWsAcc_nonspace _ _ _ (by decide),
        splitWsAcc_nonspace _ _ _ (by decide),
        splitWsAcc_nonspace _ _ _ (by decide),
        splitWsAcc_nonspace _ _ _ (by decide),
        splitWsAcc_space _ _ _ (by decide)]
      rw [if_neg (by decide)]
      rw [splitWsAcc_all_nonspace rest [] hne (fun c hc => (h c hc).1)]
      rfl
    simp only [canon_name, hlower, hstrip, hsplit]
    rw [if_pos (Or.inr trivial)]
    simp only [joinU, List.append_assoc]
    rfl

/-- Claim C9: `canon_name` lower-cases and trims; when the first word is
"left" or "right" it moves that side qualifier to the end joined by an
underscore, otherwise it joins all words with underscores; "left kidney"
maps to "kidney_left", while "kidney_left" is a fixed point only because it
has no leading side qualifier — the map is a one-way canonicalisation, not
the identity in general. -/
theorem claim_C9 :
    (∀ side rest : PyStr, (side = leftW ∨ side = rightW) → rest ≠ [] →
      (∀ c ∈ rest, isPySpace c = false ∧ Char.toLower c = c) →
      canon_name (side ++ ' ' :: rest) = rest ++ '_' :: side) ∧
    canon_name (pstr "left kidney") = pstr "kidney_left" ∧
    canon_name (pstr "kidney_left") = pstr "kidney_left" ∧
    canon_name (pstr "  LEFT Kidney ") = pstr "kidney_left" ∧
    canon_name (pstr "inferior vena cava") = pstr "inferior_vena_cava" ∧
    canon_name (pstr "left iliopsoas muscle") = pstr "iliopsoas_muscle_left" ∧
    canon_name (pstr "left kidney") ≠ pstr "left kidney" :=
  ⟨fun side rest hs hne h => canon_name_move side rest hs hne h,
    by decide, by decide, by decide, by decide, by decide, by decide⟩

/-- Witness for C9 at rest = "kidney": the general part applies and gives
"left kidney" → "kidney_left". -/
theorem claim_C9_witness :
    ((pstr "kidney" : PyStr) ≠ [] ∧
      (∀ c ∈ (pstr "kidney" : PyStr),
        isPySpace c = false ∧ Char.toLower c = c)) ∧
    canon_name (leftW ++ ' ' :: pstr "kidney") = pstr "kidney" ++ '_' :: leftW :=
  ⟨⟨by decide, by decide⟩,
    claim_C9.1 leftW (pstr "kidney") (Or.inl rfl) (by decide) (by decide)⟩

/-- A prefix occurrence is an occurrence. -/
theorem hasSub_of_startsWith {s pat : PyStr} (h : startsWith s pat = true) :
    hasSub s pat = true := by
  cases s with
  | nil => simpa [hasSub] using h
  | cons a as => simp [hasSub, h]

/-- An occurrence in the tail is an occurrence. -/
theorem hasSub_cons_of (a : Char) (as pat : PyStr)
    (h : hasSub as pat = true) : hasSub (a :: as) pat = true := by
  simp [hasSub, h]

/-- The empty pattern occurs everywhere. -/
theorem hasSub_nil_pat (s : PyStr) : hasSub s [] = true := by
  cases s with
  | nil => rfl
  | cons a as => simp [hasSub, startsWith]

/-- An occurrence survives prepending text. -/
theorem hasSub_append_left (a s pat : PyStr) (h : hasSub s pat = true) :
    hasSub (a ++ s) pat = true := by
  induction a with
  | nil => simpa using h
  | cons x xs ih => simpa [hasSub] using Or.inr ih

/-- A prefix occurrence survives appending text. -/
theorem startsWith_append (s b pat : PyStr) (h : startsWith s pat = true) :
    startsWith (s ++ b) pat = true := by
  induction pat generalizing s with
  | nil => simp [startsWith]
  | cons p ps ih =>
    cases s with
    | nil => simp [startsWith] at h
    | cons a as =>
      simp only [startsWith, Bool.and_eq_true, beq_iff_eq] at h ⊢
      exact ⟨h.1, ih as h.2⟩

/-- An occurrence survives appending text. -/
theorem hasSub_append_right (s b pat : PyStr) (h : hasSub s pat = true) :
    hasSub (s ++ b) pat = true := by
  induction s with
  | nil =>
    cases pat with
    | nil => exact hasSub_nil_pat b
    | cons p ps => simp [hasSub, startsWith] at h
  | cons a as ih =>
    simp only [hasSub, Bool.or_eq_true] at h
    rcases h with h | h
    · exact hasSub_of_startsWith (startsWith_append _ _ _ h)
    · exact hasSub_cons_of _ _ _ (ih h)

/-- A one-character pattern occurs iff the character does. -/
theorem hasSub_singleton_of_mem {c : Char} {t : PyStr} (h : c ∈ t) :
    hasSub t [c] = true := by
  induction t with
  | nil => cases h
  | cons a as ih =>
    rcases List.mem_cons.mp h with h | h
    · subst h
      simp [hasSub, startsWith]
    · exact hasSub_cons_of _ _ _ (ih h)

/-- Lower-casing distributes over concatenation. -/
theorem pyLower_append (x y : PyStr) :
    pyLower (x ++ y) = pyLower x ++ pyLower y := List.map_append _ _ _

/-- The stripped string sits inside the original string. -/
theorem pyStrip_infix (s : PyStr) : ∃ a b, s = a ++ pyStrip s ++ b := by
  refine ⟨s.takeWhile isPySpace,
    ((s.dropWhile isPySpace).reverse.takeWhile isPySpace).reverse, ?_⟩
  unfold pyStrip
  conv_lhs => rw [← List.takeWhile_append_dropWhile (p := isPySpace) (l := s)]
  rw [List.append_assoc]
  congr 1
  rw [← List.reverse_append, List.takeWhile_append_dropWhile,
    List.reverse_reverse]

/-- An occurrence in the lowered stripped string is an occurrence in the
lowered string. -/
theorem hasSub_lower_pyStrip {s pat : PyStr}
    (h : hasSub (pyLower (pyStrip s)) pat = true) :
    hasSub (pyLower s) pat = true := by
  obtain ⟨a, b, hab⟩ := pyStrip_infix s
  have hres : pyLower s = pyLower a ++ (pyLower (pyStrip s) ++ pyLower b) := by
    conv_lhs => rw [hab]
    rw [pyLower_append, pyLower_append, List.append_assoc]
  rw [hres]
  exact hasSub_append_left _ _ _ (hasSub_append_right _ _ _ h)

/-- An occurrence after `dropWhile` is an occurrence. -/
theorem hasSub_lower_dropWhile {l pat : PyStr} {f : Char → Bool}
    (h : hasSub (pyLower (l.dropWhile f)) pat = true) :
    hasSub (pyLower l) pat = true := by
  rw [show pyLower l = pyLower (l.takeWhile f) ++ pyLower (l.dropWhile f) by
    rw [← pyLower_append, List.takeWhile_append_dropWhile]]
  exact hasSub_append_left _ _ _ h

/-- Occurrence is preserved when passing from the stripped string back to
the original (contrapositive form used for the hypotheses). -/
theorem hasSub_strip_false {s pat : PyStr}
    (h : hasSub (pyLower s) pat = false) :
    hasSub (pyLower (pyStrip s)) pat = false := by
  cases hx : hasSub (pyLower (pyStrip s)) pat
  · rfl
  · rw [hasSub_lower_pyStrip hx] at h
    cases h

/-- Characters of the stripped string come from the original string. -/
theorem mem_of_mem_pyStrip {c : Char} {s : PyStr} (h : c ∈ pyStrip s) :
    c ∈ s := by
  unfold pyStrip at h
  rw [List.mem_reverse] at h
  have h2 := (List.dropWhile_sublist isPySpace).subset h
  rw [List.mem_reverse] at h2
  exact (List.dropWhile_sublist isPySpace).subset h2

/-- Characters of the replacement worker's output come from its input. -/
theorem mem_of_mem_replaceFuel {c : Char} (old : PyStr) :
    ∀ (fuel : Nat) (s : PyStr), c ∈ replaceFuel old fuel s → c ∈ s := by
  intro fuel
  induction fuel with
  | zero =>
    intro s h
    cases s with
    | nil => simpa [replaceFuel] using h
    | cons a as => simpa [replaceFuel] using h
  | succ fuel ih =>
    intro s h
    cases s with
    | nil => simpa [replaceFuel] using h
    | cons a as =>
      by_cases hs : startsWith (a :: as) old = true
      · simp only [replaceFuel] at h
        rw [if_pos hs] at h
        exact List.mem_of_mem_drop (ih _ h)
      · simp only [replaceFuel] at h
        rw [if_neg hs] at h
        rcases List.mem_cons.mp h with h | h
        · simp [h]
        · exact List.mem_cons.mpr (Or.inr (ih _ h))

/-- Characters of `replaceAll`'s output come from its input. -/
theorem mem_of_mem_replaceAll {c : Char} {s old : PyStr}
    (h : c ∈ replaceAll s old) : c ∈ s := by
  unfold replaceAll at h
  split at h
  · exact h
  · exact mem_of_mem_replaceFuel old _ _ h

/-- Characters of one prompt-stripping step come from the accumulator. -/
theorem mem_of_mem_stripLineStep {c : Char} {acc l : PyStr}
    (h : c ∈ stripLineStep acc l) : c ∈ acc := by
  unfold stripLineStep at h
  dsimp only at h
  split at h
  · exact h
  · exact mem_of_mem_replaceAll h

/-- Characters of the prompt-stripped text come from the original text. -/
theorem mem_of_mem_stripFold {c : Char} :
    ∀ (ls : List PyStr) (txt : PyStr),
      c ∈ ls.foldl stripLineStep txt → c ∈ txt := by
  intro ls
  induction ls with
  | nil => intro txt h; simpa using h
  | cons l ls ih =>
    intro txt h
    exact mem_of_mem_stripLineStep (ih (stripLineStep txt l) h)

/-- Characters of `stripPromptLines`'s output come from the text. -/
theorem mem_of_mem_stripPromptLines {c : Char} {prompt txt : PyStr}
    (h : c ∈ stripPromptLines prompt txt) : c ∈ txt :=
  mem_of_mem_stripFold _ _ h

/-- An occurrence in the lowered tail is an occurrence in the lowered
list. -/
theorem hasSub_lower_cons (a : Char) (as pat : PyStr)
    (h : hasSub (pyLower as) pat = true) :
    hasSub (pyLower (a :: as)) pat = true := by
  rw [show pyLower (a :: as) = Char.toLower a :: pyLower as from rfl]
  exact hasSub_cons_of _ _ _ h

/-- A case-insensitive prefix of the bracket-stripped string occurs in the
lowered original string. -/
theorem ciPref_stripdrop_hasSub {t pat : PyStr}
    (h : ciPref pat ((pyStrip t).dropWhile openCls) = true) :
    hasSub (pyLower t) pat = true :=
  hasSub_lower_pyStrip (hasSub_lower_dropWhile (hasSub_of_startsWith h))

/-- `sdigit` fails when the lowered input contains neither digit. -/
theorem sdigit_none_of (t : PyStr)
    (h0 : hasSub (pyLower t) zeroW = false)
    (h1 : hasSub (pyLower t) oneW = false) : sdigit t = none := by
  unfold sdigit
  cases hd : (pyStrip t).dropWhile openCls with
  | nil => rfl
  | cons d rest =>
    have hdmem : d ∈ pyStrip t := by
      have hm : d ∈ (pyStrip t).dropWhile openCls := by
        rw [hd]
        exact List.mem_cons_self _ _
      exact (List.dropWhile_sublist openCls).subset hm
    have hd0 : d ≠ '0' := by
      intro he
      subst he
      have hmem : ('0' : Char) ∈ pyLower (pyStrip t) :=
        List.mem_map.mpr ⟨'0', hdmem, rfl⟩
      have hss := hasSub_lower_pyStrip (s := t) (hasSub_singleton_of_mem hmem)
      have h0' : hasSub (pyLower t) ['0'] = false := h0
      rw [hss] at h0'
      cases h0'
    have hd1 : d ≠ '1' := by
      intro he
      subst he
      have hmem : ('1' : Char) ∈ pyLower (pyStrip t) :=
        List.mem_map.mpr ⟨'1', hdmem, rfl⟩
      have hss := hasSub_lower_pyStrip (s := t) (hasSub_singleton_of_mem hmem)
      have h1' : hasSub (pyLower t) ['1'] = false := h1
      rw [hss] at h1'
      cases h1'
    simp [hd0, hd1]

/-- `syesno` fails when the lowered input contains neither word. -/
theorem syesno_none_of (t : PyStr)
    (hy : hasSub (pyLower t) yesW = false)
    (hn : hasSub (pyLower t) noW = false) : syesno t = none := by
  have hy2 : ciPref yesW ((pyStrip t).dropWhile openCls) = false := by
    cases hx : ciPref yesW ((pyStrip t).dropWhile openCls)
    · rfl
    · rw [ciPref_stripdrop_hasSub hx] at hy
      cases hy
  have hn2 : ciPref noW ((pyStrip t).dropWhile openCls) = false := by
    cases hx : ciPref noW ((pyStrip t).dropWhile openCls)
    · rfl
    · rw [ciPref_stripdrop_hasSub hx] at hn
      cases hn
  simp [syesno, hy2, hn2]

/-- A successful prefix-token carries an occurrence of the token. -/
theorem seTokStart_hasSub {p tok : PyStr} (h : seTokStart p = some tok) :
    (tok = zeroW ∨ tok = oneW ∨ tok = yesW ∨ tok = noW) ∧
      hasSub (pyLower p) tok = true := by
  unfold seTokStart at h
  by_cases c1 : ciPref zeroW p = true
  · rw [if_pos c1] at h
    injection h with h
    subst h
    exact ⟨Or.inl rfl, hasSub_of_startsWith c1⟩
  · rw [if_neg c1] at h
    by_cases c2 : ciPref oneW p = true
    · rw [if_pos c2] at h
      injection h with h
      subst h
      exact ⟨Or.inr (Or.inl rfl), hasSub_of_startsWith c2⟩
    · rw [if_neg c2] at h
      by_cases c3 : ciPref yesW p = true
      · rw [if_pos c3] at h
        injection h with h
        subst h
        exact ⟨Or.inr (Or.inr (Or.inl rfl)), hasSub_of_startsWith c3⟩
      · rw [if_neg c3] at h
        by_cases c4 : ciPref noW p = true
        · rw [if_pos c4] at h
          injection h with h
          subst h
          exact ⟨Or.inr (Or.inr (Or.inr rfl)), hasSub_of_startsWith c4⟩
        · rw [if_neg c4] at h
          cases h

/-- A successful end-token attempt at one position carries an occurrence of
the token. -/
theorem seTokEndHere_hasSub {t tok : PyStr} (h : seTokEndHere t = some tok) :
    (tok = zeroW ∨ tok = oneW ∨ tok = yesW ∨ tok = noW) ∧
      hasSub (pyLower t) tok = true := by
  unfold seTokEndHere at h
  by_cases c1 : (ciPref zeroW t && (t.drop 1).all closeCls) = true
  · rw [if_pos c1] at h
    injection h with h
    subst h
    exact ⟨Or.inl rfl,
      hasSub_of_startsWith ((Bool.and_eq_true _ _ ▸ c1 : _ ∧ _).1)⟩
  · rw [if_neg c1] at h
    by_cases c2 : (ciPref oneW t && (t.drop 1).all closeCls) = true
    · rw [if_pos c2] at h
      injection h with h
      subst h
      exact ⟨Or.inr (Or.inl rfl),
        hasSub_of_startsWith ((Bool.and_eq_true _ _ ▸ c2 : _ ∧ _).1)⟩
    · rw [if_neg c2] at h
      by_cases c3 : (ciPref yesW t && (t.drop 3).all closeCls) = true
      · rw [if_pos c3] at h
        injection h with h
        subst h
        exact ⟨Or.inr (Or.inr (Or.inl rfl)),
          hasSub_of_startsWith ((Bool.and_eq_true _ _ ▸ c3 : _ ∧ _).1)⟩
      · rw [if_neg c3] at h
        by_cases c4 : (ciPref noW t && (t.drop 2).all closeCls) = true
        · rw [if_pos c4] at h
          injection h with h
          subst h
          exact ⟨Or.inr (Or.inr (Or.inr rfl)),
            hasSub_of_startsWith ((Bool.and_eq_true _ _ ▸ c4 : _ ∧ _).1)⟩
        · rw [if_neg c4] at h
          cases h

/-- A successful end-token search carries an occurrence of the token. -/
theorem seTokEnd_hasSub :
    ∀ (t tok : PyStr), seTokEnd t = some tok →
      (tok = zeroW ∨ tok = oneW ∨ tok = yesW ∨ tok = noW) ∧
        hasSub (pyLower t) tok = true := by
  intro t
  induction t with
  | nil =>
    intro tok h
    simp [seTokEnd] at h
  | cons a as ih =>
    intro tok h
    simp only [seTokEnd] at h
    cases hh : seTokEndHere (a :: as) with
    | some tk =>
      rw [hh] at h
      injection h with h
      subst h
      exact seTokEndHere_hasSub hh
    | none =>
      rw [hh] at h
      obtain ⟨hc, hs⟩ := ih tok h
      exact ⟨hc, hasSub_lower_cons _ _ _ hs⟩

/-- `se_token` fails when the lowered input contains no token at all. -/
theorem se_token_none_of (t : PyStr)
    (h0 : hasSub (pyLower t) zeroW = false)
    (h1 : hasSub (pyLower t) oneW = false)
    (hy : hasSub (pyLower t) yesW = false)
    (hn : hasSub (pyLower t) noW = false) : se_token t = none := by
  have hstart : seTokStart ((pyStrip t).dropWhile openCls) = none := by
    cases hx : seTokStart ((pyStrip t).dropWhile openCls) with
    | none => rfl
    | some tok =>
      exfalso
      obtain ⟨hc, hs⟩ := seTokStart_hasSub hx
      have hs2 : hasSub (pyLower t) tok = true :=
        hasSub_lower_pyStrip (hasSub_lower_dropWhile hs)
      rcases hc with rfl | rfl | rfl | rfl
      · rw [h0] at hs2; cases hs2
      · rw [h1] at hs2; cases hs2
      · rw [hy] at hs2; cases hs2
      · rw [hn] at hs2; cases hs2
  have hend : seTokEnd (pyStrip t) = none := by
    cases hx : seTokEnd (pyStrip t) with
    | none => rfl
    | some tok =>
      exfalso
      obtain ⟨hc, hs⟩ := seTokEnd_hasSub _ _ hx
      have hs2 : hasSub (pyLower t) tok = true := hasSub_lower_pyStrip hs
      rcases hc with rfl | rfl | rfl | rfl
      · rw [h0] at hs2; cases hs2
      · rw [h1] at hs2; cases hs2
      · rw [hy] at hs2; cases hs2
      · rw [hn] at hs2; cases hs2
  simp [se_token, hstart, hend]

/-- A successful whitespace-digit step yields a 0/1 character of the
input. -/
theorem wsDigit_some {t : PyStr} {c : Char} (h : wsDigit t = some c) :
    (c = '1' ∨ c = '0') ∧ c ∈ t := by
  unfold wsDigit at h
  cases hd : t.dropWhile isPySpace with
  | nil => rw [hd] at h; cases h
  | cons a as =>
    rw [hd] at h
    dsimp only at h
    by_cases hc : (a == '1' || a == '0') = true
    · rw [if_pos hc] at h
      injection h with h
      subst h
      constructor
      · simpa using hc
      · have hm : a ∈ t.dropWhile isPySpace := by
          rw [hd]
          exact List.mem_cons_self _ _
        exact (List.dropWhile_sublist isPySpace).subset hm
    · rw [if_neg hc] at h
      cases h

/-- A successful separator-digit step yields a 0/1 character of the
input. -/
theorem sepDigit_some {t : PyStr} {c : Char} (h : sepDigit t = some c) :
    (c = '1' ∨ c = '0') ∧ c ∈ t := by
  unfold sepDigit at h
  split at h
  · rename_i c1 heq
    injection h with h
    subst h
    split at heq
    · obtain ⟨hc, hm⟩ := wsDigit_some heq
      exact ⟨hc, List.mem_of_mem_drop hm⟩
    · cases heq
  · split at h
    · rename_i c1 heq
      injection h with h
      subst h
      split at heq
      · obtain ⟨hc, hm⟩ := wsDigit_some heq
        exact ⟨hc, List.mem_of_mem_drop hm⟩
      · cases heq
    · exact wsDigit_some h

/-- A successful keyword attempt yields a 0/1 character of the input. -/
theorem kwTry_some {t : PyStr} {c : Char} :
    ∀ ws : List PyStr, kwTry t ws = some c → (c = '1' ∨ c = '0') ∧ c ∈ t := by
  intro ws
  induction ws with
  | nil =>
    intro h
    simp [kwTry] at h
  | cons w ws ih =>
    intro h
    simp only [kwTry] at h
    split at h
    · rename_i c1 heq
      injection h with h
      subst h
      split at heq
      · obtain ⟨hc, hm⟩ := sepDigit_some heq
        exact ⟨hc, List.mem_of_mem_drop hm⟩
      · cases heq
    · exact ih h

/-- A successful keyword search yields a 0/1 character of the text. -/
theorem kwScan_some :
    ∀ (s : PyStr) {c : Char}, kwScan s = some c →
      (c = '1' ∨ c = '0') ∧ c ∈ s := by
  intro s
  induction s with
  | nil =>
    intro c h
    simp [kwScan] at h
  | cons a as ih =>
    intro c h
    simp only [kwScan] at h
    cases hh : kwAt (a :: as) with
    | some tk =>
      rw [hh] at h
      injection h with h
      subst h
      exact kwTry_some kwWords hh
    | none =>
      rw [hh] at h
      obtain ⟨hc, hm⟩ := ih h
      exact ⟨hc, List.mem_cons.mpr (Or.inr hm)⟩

/-- Tier D fails whenever the spatial fallback fails on the text. -/
theorem tier4_none {q txt : PyStr}
    (h : parse_spatial_relation q txt = none) : tier4 q txt = none := by
  unfold tier4
  split
  · exact h
  · rfl

/-- Counterexample to claim C4 as stated: the string "leXft" contains no
0/1/yes/no token and no direction word at all — in particular none matching
the question — yet with the one-line prompt "X" the prompt-stripping step
of the cascade splices the deleted fragments into the direction word
"left", and the parser returns label 1, not the unparseable outcome. -/
theorem claim_C4_counterexample :
    ('0' ∉ pstr "leXft" ∧ '1' ∉ pstr "leXft" ∧
      hasSub (pyLower (pstr "leXft")) yesW = false ∧
      hasSub (pyLower (pstr "leXft")) noW = false ∧
      hasSub (pyLower (pstr "leXft")) aboveW = false ∧
      hasSub (pyLower (pstr "leXft")) belowW = false ∧
      hasSub (pyLower (pstr "leXft")) leftW = false ∧
      hasSub (pyLower (pstr "leXft")) rightW = false ∧
      parse_spatial_relation (pstr "Is the liver to the left of the spleen?")
        (pstr "leXft") = none) ∧
    (parse_model_answer (pstr "leXft")
      (pstr "Is the liver to the left of the spleen?") (pstr "X")).1 =
      some 1 := by
  constructor
  · exact ⟨by decide, by decide, by decide, by decide, by decide, by decide,
      by decide, by decide, by decide⟩
  · decide

/-- Claim C4 (amended): the parser returns the unparseable outcome for
every answer string whose lowered text contains no 0/1/yes/no token,
provided additionally that the spatial fallback fails both on the stripped
text itself and on the first clause of the prompt-stripped cleaned text
(the latter condition cannot be dropped: deleting prompt lines can splice
new direction words, see the counterexample). -/
theorem claim_C4 (s q prompt : PyStr)
    (h0 : hasSub (pyLower s) zeroW = false)
    (h1 : hasSub (pyLower s) oneW = false)
    (hy : hasSub (pyLower s) yesW = false)
    (hn : hasSub (pyLower s) noW = false)
    (hpsr : parse_spatial_relation q (pyStrip s) = none)
    (ht5 : tier5 q (stripPromptLines prompt (pyStrip s)) = none) :
    parse_model_answer s q prompt =
      (none, some (stripPromptLines prompt (pyStrip s))) := by
  have s0 : hasSub (pyLower (pyStrip s)) zeroW = false := hasSub_strip_false h0
  have s1 : hasSub (pyLower (pyStrip s)) oneW = false := hasSub_strip_false h1
  have sy : hasSub (pyLower (pyStrip s)) yesW = false := hasSub_strip_false hy
  have sn : hasSub (pyLower (pyStrip s)) noW = false := hasSub_strip_false hn
  have hsd : sdigit (pyStrip s) = none := sdigit_none_of _ s0 s1
  have hyn : syesno (pyStrip s) = none := syesno_none_of _ sy sn
  have hse : se_token (pyStrip s) = none := se_token_none_of _ s0 s1 sy sn
  have ht4 : tier4 q (pyStrip s) = none := tier4_none hpsr
  have hkw : kwScan (stripPromptLines prompt (pyStrip s)) = none := by
    cases hx : kwScan (stripPromptLines prompt (pyStrip s)) with
    | none => rfl
    | some c =>
      exfalso
      obtain ⟨hc01, hcm⟩ := kwScan_some _ hx
      have hcs : c ∈ pyStrip s := mem_of_mem_stripPromptLines hcm
      rcases hc01 with rfl | rfl
      · have hmem : ('1' : Char) ∈ pyLower (pyStrip s) :=
          List.mem_map.mpr ⟨'1', hcs, rfl⟩
        have hss := hasSub_singleton_of_mem hmem
        have s1' : hasSub (pyLower (pyStrip s)) ['1'] = false := s1
        rw [hss] at s1'
        cases s1'
      · have hmem : ('0' : Char) ∈ pyLower (pyStrip s) :=
          List.mem_map.mpr ⟨'0', hcs, rfl⟩
        have hss := hasSub_singleton_of_mem hmem
        have s0' : hasSub (pyLower (pyStrip s)) ['0'] = false := s0
        rw [hss] at s0'
        cases s0'
  simp only [parse_model_answer, hsd, hyn, hse, ht4, ht5, hkw]

/-- Witness for the amended C4: the token-free answer "bla bla" with a
left/right question and a prompt that does not occur in the answer is
parsed as unparseable, with the cleaned text as residual. -/
theorem claim_C4_witness :
    (hasSub (pyLower (pstr "bla bla")) zeroW = false ∧
      hasSub (pyLower (pstr "bla bla")) oneW = false ∧
      hasSub (pyLower (pstr "bla bla")) yesW = false ∧
      hasSub (pyLower (pstr "bla bla")) noW = false ∧
      parse_spatial_relation (pstr "Is the liver to the left of the spleen?")
        (pyStrip (pstr "bla bla")) = none ∧
      tier5 (pstr "Is the liver to the left of the spleen?")
        (stripPromptLines (pstr "X") (pyStrip (pstr "bla bla"))) = none) ∧
    parse_model_answer (pstr "bla bla")
        (pstr "Is the liver to the left of the spleen?") (pstr "X") =
      (none, some (stripPromptLines (pstr "X") (pyStrip (pstr "bla bla")))) :=
  ⟨⟨by decide, by decide, by decide, by decide, by decide, by decide⟩,
    claim_C4 (pstr "bla bla") (pstr "Is the liver to the left of the spleen?")
      (pstr "X") (by decide) (by decide) (by decide) (by decide) (by decide)
      (by decide)⟩

end MIRP
